import Mathlib

/-!
Shallow embedding of the Library Smart Checkout & Resource Management System
(src/library/models.py and src/library/views.py).

The relational store is modelled as lists of rows; each Django view that
mutates state becomes a function `LibState → ... → LibState × Outcome`.
Timestamps are integers (seconds); `timezone.now()` becomes an explicit
`now : Int` argument, one value per request.  Python's
`(now - due_date).days` floors toward negative infinity, which is
`Int.fdiv _ 86400`.  Fines are always whole dollars (`$1` per day), so
`fine_amount` is an `Int` number of dollars.
-/

namespace Library

/-- Roles of `User.ROLE_CHOICES` in models.py. -/
inductive Role where
  | patron
  | staff
  | admin
deriving DecidableEq, Repr

/-- Resource statuses of `Resource.STATUS_CHOICES` in models.py. -/
inductive ResStatus where
  | available
  | checkedOut
  | reserved
  | lost
deriving DecidableEq, Repr

/-- Checkout statuses of `Checkout.STATUS_CHOICES` in models.py. -/
inductive CkStatus where
  | active
  | returned
  | lost
deriving DecidableEq, Repr

/-- Reservation statuses of `Reservation.STATUS_CHOICES` in models.py. -/
inductive RsvStatus where
  | pending
  | notified
  | cancelled
  | expired
deriving DecidableEq, Repr

/-- Notification types of `Notification.TYPE_CHOICES` in models.py. -/
inductive NType where
  | overdue
  | resAvail
  | newResource
  | event
deriving DecidableEq, Repr

/-- A row of the `User` model (fields the workflows touch). -/
structure User where
  id : Nat
  role : Role
  is_active : Bool
deriving DecidableEq, Repr

/-- A row of the `Resource` model (fields the workflows touch). -/
structure Resource where
  id : Nat
  status : ResStatus
deriving DecidableEq, Repr

/-- A row of the `Checkout` model. -/
structure Checkout where
  id : Nat
  patron : Nat
  resource : Nat
  checkout_date : Int
  due_date : Int
  status : CkStatus
deriving DecidableEq, Repr

/-- A row of the `Return` model (one-to-one with a `Checkout` by its id). -/
structure Return where
  checkout : Nat
  returned_at : Int
  fine_amount : Int
deriving DecidableEq, Repr

/-- A row of the `Reservation` model. -/
structure Reservation where
  patron : Nat
  resource : Nat
  status : RsvStatus
deriving DecidableEq, Repr

/-- A row of the `Notification` model (recipient and type). -/
structure Notification where
  user : Nat
  ntype : NType
deriving DecidableEq, Repr

/-- A row of the `Report` model: the `POPULAR_RESOURCES` payload is a ranked
list of (resource id, checkout count). -/
structure Report where
  data : List (Nat × Nat)
deriving DecidableEq, Repr

/-- The relational store.  `nextCheckoutId` models the autoincrementing
primary key of `Checkout`. -/
structure LibState where
  users : List User
  resources : List Resource
  checkouts : List Checkout
  returns : List Return
  reservations : List Reservation
  notifications : List Notification
  reports : List Report
  nextCheckoutId : Nat
deriving DecidableEq, Repr

/-- Every view reports its effect through a redirect plus a
success/error/info message; this enum captures which branch was taken. -/
inductive Outcome where
  | success
  | notPatron
  | notFound
  | notAvailable
  | notActive
  | capReached
  | advisoryAvailable
  | denied
deriving DecidableEq, Repr

/-- `get_object_or_404(User, id=uid)`. -/
def findUser? (s : LibState) (uid : Nat) : Option User :=
  s.users.find? (fun u => u.id == uid)

/-- `get_object_or_404(Resource, pk=pk)`. -/
def findResource? (s : LibState) (pk : Nat) : Option Resource :=
  s.resources.find? (fun r => r.id == pk)

/-- `get_object_or_404(Checkout, id=checkout_id)`. -/
def findCheckout? (s : LibState) (cid : Nat) : Option Checkout :=
  s.checkouts.find? (fun c => c.id == cid)

/-- `get_object_or_404(Checkout, id=checkout_id, patron=patron)`. -/
def findOwnedCheckout? (s : LibState) (cid pid : Nat) : Option Checkout :=
  s.checkouts.find? (fun c => c.id == cid && c.patron == pid)

/-- `resource.status = st; resource.save()` for the row with id `rid`. -/
def setResourceStatus (s : LibState) (rid : Nat) (st : ResStatus) : LibState :=
  { s with resources :=
      s.resources.map (fun r => if r.id == rid then { r with status := st } else r) }

/-- `checkout.status = st; checkout.save()` for the row with id `cid`. -/
def setCheckoutStatus (s : LibState) (cid : Nat) (st : CkStatus) : LibState :=
  { s with checkouts :=
      s.checkouts.map (fun c => if c.id == cid then { c with status := st } else c) }

/-- `create_notification(user, ntype, message)` in views.py. -/
def create_notification (s : LibState) (uid : Nat) (t : NType) : LibState :=
  { s with notifications := { user := uid, ntype := t } :: s.notifications }

/-- `MAX_ACTIVE_RESERVATIONS_PER_PATRON = 10` in views.py. -/
def MAX_ACTIVE_RESERVATIONS_PER_PATRON : Nat := 10

/-- Seconds per day; Python `timedelta(days=14)` is `14 * 86400` seconds. -/
def secondsPerDay : Int := 86400

/-- The value `calculate_due_date()` in views.py is written to produce:
`timezone.now() + timedelta(days=14)`.  NOTE: views.py never imports
`timedelta` (only `timezone` comes from django.utils), so as executed the
call raises `NameError` — see `calculate_due_date_actual` below.  This
definition models the evidently intended value (the spec's `now + 14d`) and
backs the intended-behavior checkout model used by the invariant
development. -/
def calculate_due_date (now : Int) : Int :=
  now + 14 * secondsPerDay

/-- `calculate_due_date()` as the program actually executes it: the body
references `timedelta`, a name views.py never binds, so every call raises
`NameError` instead of returning a timestamp.  `Except.error` is the raised
exception. -/
def calculate_due_date_actual (_now : Int) : Except Unit Int :=
  Except.error ()

/-- `Checkout.is_overdue` in models.py:
`status == ACTIVE and timezone.now() > due_date`. -/
def is_overdue (c : Checkout) (now : Int) : Bool :=
  c.status == CkStatus.active && decide (c.due_date < now)

/-- `calculate_overdue_fine` in views.py: `$1` per day overdue.
`(now - due_date).days` floors toward negative infinity, hence `Int.fdiv`. -/
def calculate_overdue_fine (c : Checkout) (now : Int) : Int :=
  if !(is_overdue c now) then 0
  else max 0 ((now - c.due_date).fdiv secondsPerDay)

/-- Count of the actor's PENDING reservations, as queried by
`reserve_resource`. -/
def pendingCount (s : LibState) (pid : Nat) : Nat :=
  (s.reservations.filter
    (fun rv => rv.patron == pid && rv.status == RsvStatus.pending)).length

/-- The `checkout_resource` view (views.py lines 104-135) as evidently
intended, with `calculate_due_date` returning `now + 14d`.  The actor is
the authenticated `request.user`.  NOTE: because the real
`calculate_due_date` raises `NameError`, the program can never take this
success path — `checkout_resource_actual` below is the as-executed
behavior.  This intended-behavior model is what the invariant development
steps over: it strictly dominates the actual behavior, which mutates
nothing. -/
def checkout_resource (s : LibState) (actor : User) (pk : Nat) (now : Int) :
    LibState × Outcome :=
  if actor.role != Role.patron then (s, Outcome.notPatron)
  else
    match findResource? s pk with
    | none => (s, Outcome.notFound)
    | some r =>
      if r.status != ResStatus.available then (s, Outcome.notAvailable)
      else
        let due := calculate_due_date now
        let c : Checkout :=
          { id := s.nextCheckoutId, patron := actor.id, resource := pk,
            checkout_date := now, due_date := due, status := CkStatus.active }
        let s1 := { s with checkouts := c :: s.checkouts,
                           nextCheckoutId := s.nextCheckoutId + 1 }
        let s2 := setResourceStatus s1 pk ResStatus.checkedOut
        let s3 := create_notification s2 actor.id NType.newResource
        (s3, Outcome.success)

/-- `checkout_resource` as the program actually executes it: the role and
availability checks run first (views.py lines 110-117, rejections with no
writes), then line 119 calls `calculate_due_date`, which raises `NameError`;
the exception is uncaught, so the request aborts before
`Checkout.objects.create` at line 120 — no Checkout row is created, the
resource keeps its status, and no notification is emitted.  `Except.error`
is the escaped exception. -/
def checkout_resource_actual (s : LibState) (actor : User) (pk : Nat)
    (now : Int) : Except Unit (LibState × Outcome) :=
  if actor.role != Role.patron then Except.ok (s, Outcome.notPatron)
  else
    match findResource? s pk with
    | none => Except.ok (s, Outcome.notFound)
    | some r =>
      if r.status != ResStatus.available then Except.ok (s, Outcome.notAvailable)
      else
        match calculate_due_date_actual now with
        | Except.error e => Except.error e
        | Except.ok due =>
          let c : Checkout :=
            { id := s.nextCheckoutId, patron := actor.id, resource := pk,
              checkout_date := now, due_date := due, status := CkStatus.active }
          let s1 := { s with checkouts := c :: s.checkouts,
                             nextCheckoutId := s.nextCheckoutId + 1 }
          let s2 := setResourceStatus s1 pk ResStatus.checkedOut
          let s3 := create_notification s2 actor.id NType.newResource
          Except.ok (s3, Outcome.success)

/-- The database state a request leaves behind: when the view dies on an
uncaught exception nothing was written, so the store keeps its prior
contents; otherwise it is the state the view returned. -/
def stateAfter (s : LibState) : Except Unit (LibState × Outcome) → LibState
  | Except.error _ => s
  | Except.ok p => p.1

/-- Did the request complete a success path (as opposed to a rejection
branch or an escaped exception)? -/
def isSuccess : Except Unit (LibState × Outcome) → Bool
  | Except.ok p => p.2 == Outcome.success
  | Except.error _ => false

/-- `return_resource` view (views.py lines 138-174): patron self-service
return, scoped to the actor's own checkout. -/
def return_resource (s : LibState) (actor : User) (checkout_id : Nat)
    (now : Int) : LibState × Outcome :=
  match findOwnedCheckout? s checkout_id actor.id with
  | none => (s, Outcome.notFound)
  | some c =>
    if c.status != CkStatus.active then (s, Outcome.notActive)
    else
      let fine := calculate_overdue_fine c now
      let s1 := { s with returns :=
        { checkout := c.id, returned_at := now, fine_amount := fine } :: s.returns }
      let s2 := setCheckoutStatus s1 c.id CkStatus.returned
      let s3 := setResourceStatus s2 c.resource ResStatus.available
      let s4 := create_notification s3 actor.id
        (if fine > 0 then NType.overdue else NType.event)
      (s4, Outcome.success)

/-- `staff_process_return` view (views.py lines 237-263), gated by
`staff_required`; no ownership check. -/
def staff_process_return (s : LibState) (actor : User) (checkout_id : Nat)
    (now : Int) : LibState × Outcome :=
  if actor.role != Role.staff then (s, Outcome.denied)
  else
    match findCheckout? s checkout_id with
    | none => (s, Outcome.notFound)
    | some c =>
      if c.status != CkStatus.active then (s, Outcome.notActive)
      else
        let fine := calculate_overdue_fine c now
        let s1 := { s with returns :=
          { checkout := c.id, returned_at := now, fine_amount := fine } :: s.returns }
        let s2 := setCheckoutStatus s1 c.id CkStatus.returned
        let s3 := setResourceStatus s2 c.resource ResStatus.available
        let s4 := create_notification s3 c.patron
          (if fine > 0 then NType.overdue else NType.event)
        (s4, Outcome.success)

/-- `reserve_resource` view (views.py lines 177-209).  Gated only by
`login_required`: the source performs no role check here. -/
def reserve_resource (s : LibState) (actor : User) (pk : Nat) :
    LibState × Outcome :=
  match findResource? s pk with
  | none => (s, Outcome.notFound)
  | some r =>
    if pendingCount s actor.id ≥ MAX_ACTIVE_RESERVATIONS_PER_PATRON then
      (s, Outcome.capReached)
    else if r.status == ResStatus.available then (s, Outcome.advisoryAvailable)
    else
      let s1 := { s with reservations :=
        { patron := actor.id, resource := pk, status := RsvStatus.pending }
          :: s.reservations }
      let s2 := setResourceStatus s1 pk ResStatus.reserved
      let s3 := create_notification s2 actor.id NType.resAvail
      (s3, Outcome.success)

/-- `admin_promote_to_staff` view (views.py lines 278-287), gated by
`admin_required`. -/
def admin_promote_to_staff (s : LibState) (actor : User) (user_id : Nat) :
    LibState × Outcome :=
  if actor.role != Role.admin then (s, Outcome.denied)
  else
    match findUser? s user_id with
    | none => (s, Outcome.notFound)
    | some _ =>
      ({ s with users :=
          s.users.map (fun u =>
            if u.id == user_id then { u with role := Role.staff } else u) },
        Outcome.success)

/-- `admin_deactivate_staff` view (views.py lines 290-299):
`get_object_or_404(User, id=user_id, role=STAFF)` then `is_active = False`. -/
def admin_deactivate_staff (s : LibState) (actor : User) (user_id : Nat) :
    LibState × Outcome :=
  if actor.role != Role.admin then (s, Outcome.denied)
  else
    match s.users.find? (fun u => u.id == user_id && u.role == Role.staff) with
    | none => (s, Outcome.notFound)
    | some _ =>
      ({ s with users :=
          s.users.map (fun u =>
            if u.id == user_id && u.role == Role.staff then
              { u with is_active := false } else u) },
        Outcome.success)

/-- Count of all checkouts of a resource (`Count("checkouts")`). -/
def checkoutCountFor (s : LibState) (rid : Nat) : Nat :=
  (s.checkouts.filter (fun c => c.resource == rid)).length

/-- Stable insertion keeping counts in descending order
(`order_by("-checkout_count")`). -/
def insertByCountDesc (p : Nat × Nat) : List (Nat × Nat) → List (Nat × Nat)
  | [] => [p]
  | q :: qs => if p.2 > q.2 then p :: q :: qs else q :: insertByCountDesc p qs

/-- Stable sort by descending checkout count. -/
def sortByCountDesc : List (Nat × Nat) → List (Nat × Nat)
  | [] => []
  | p :: ps => insertByCountDesc p (sortByCountDesc ps)

/-- `generate_popular_resources_report` view (views.py lines 304-324),
gated by `staff_required`: top 20 resources by checkout count, appended as
an immutable `Report` row. -/
def generate_popular_resources_report (s : LibState) (actor : User) :
    LibState × Outcome :=
  if actor.role != Role.staff then (s, Outcome.denied)
  else
    let data :=
      (sortByCountDesc
        (s.resources.map (fun r => (r.id, checkoutCountFor s r.id)))).take 20
    ({ s with reports := { data := data } :: s.reports }, Outcome.success)

/-! ### Frame lemmas for the elementary updates -/

@[simp] lemma setResourceStatus_users (s : LibState) (rid : Nat) (st : ResStatus) :
    (setResourceStatus s rid st).users = s.users := rfl

@[simp] lemma setResourceStatus_checkouts (s : LibState) (rid : Nat) (st : ResStatus) :
    (setResourceStatus s rid st).checkouts = s.checkouts := rfl

@[simp] lemma setResourceStatus_returns (s : LibState) (rid : Nat) (st : ResStatus) :
    (setResourceStatus s rid st).returns = s.returns := rfl

@[simp] lemma setResourceStatus_reservations (s : LibState) (rid : Nat) (st : ResStatus) :
    (setResourceStatus s rid st).reservations = s.reservations := rfl

@[simp] lemma setResourceStatus_nextCheckoutId (s : LibState) (rid : Nat) (st : ResStatus) :
    (setResourceStatus s rid st).nextCheckoutId = s.nextCheckoutId := rfl

@[simp] lemma setCheckoutStatus_users (s : LibState) (cid : Nat) (st : CkStatus) :
    (setCheckoutStatus s cid st).users = s.users := rfl

@[simp] lemma setCheckoutStatus_resources (s : LibState) (cid : Nat) (st : CkStatus) :
    (setCheckoutStatus s cid st).resources = s.resources := rfl

@[simp] lemma setCheckoutStatus_returns (s : LibState) (cid : Nat) (st : CkStatus) :
    (setCheckoutStatus s cid st).returns = s.returns := rfl

@[simp] lemma setCheckoutStatus_reservations (s : LibState) (cid : Nat) (st : CkStatus) :
    (setCheckoutStatus s cid st).reservations = s.reservations := rfl

@[simp] lemma setCheckoutStatus_nextCheckoutId (s : LibState) (cid : Nat) (st : CkStatus) :
    (setCheckoutStatus s cid st).nextCheckoutId = s.nextCheckoutId := rfl

@[simp] lemma create_notification_users (s : LibState) (uid : Nat) (t : NType) :
    (create_notification s uid t).users = s.users := rfl

@[simp] lemma create_notification_resources (s : LibState) (uid : Nat) (t : NType) :
    (create_notification s uid t).resources = s.resources := rfl

@[simp] lemma create_notification_checkouts (s : LibState) (uid : Nat) (t : NType) :
    (create_notification s uid t).checkouts = s.checkouts := rfl

@[simp] lemma create_notification_returns (s : LibState) (uid : Nat) (t : NType) :
    (create_notification s uid t).returns = s.returns := rfl

@[simp] lemma create_notification_reservations (s : LibState) (uid : Nat) (t : NType) :
    (create_notification s uid t).reservations = s.reservations := rfl

@[simp] lemma create_notification_nextCheckoutId (s : LibState) (uid : Nat) (t : NType) :
    (create_notification s uid t).nextCheckoutId = s.nextCheckoutId := rfl

/-- Looking up an id in a list after updating the row with that id. -/
lemma find?_map_update {α : Type} (idOf : α → Nat) (upd : α → α)
    (hid : ∀ a, idOf (upd a) = idOf a) (l : List α) (k : Nat) :
    (l.map (fun a => if idOf a == k then upd a else a)).find? (fun a => idOf a == k)
      = (l.find? (fun a => idOf a == k)).map upd := by
  induction l with
  | nil => rfl
  | cons a t ih =>
    by_cases h : idOf a = k
    · simp [List.find?, h, hid]
    · simp only [List.map_cons]
      rw [if_neg (by simp [h])]
      rw [List.find?_cons_of_neg _ (by simp [h]), List.find?_cons_of_neg _ (by simp [h])]
      exact ih

/-- `findResource?` after `setResourceStatus` on the same id. -/
lemma findResource?_setResourceStatus (s : LibState) (rid : Nat) (st : ResStatus) :
    findResource? (setResourceStatus s rid st) rid
      = (findResource? s rid).map (fun r => { r with status := st }) := by
  simpa [findResource?, setResourceStatus] using
    find?_map_update (fun r : Resource => r.id) (fun r => { r with status := st })
      (fun _ => rfl) s.resources rid

/-- `findUser?` after the promote update on the same id. -/
lemma findUser?_promote (s : LibState) (uid : Nat) :
    (s.users.map (fun u => if u.id == uid then { u with role := Role.staff } else u)).find?
        (fun u => u.id == uid)
      = (s.users.find? (fun u => u.id == uid)).map (fun u => { u with role := Role.staff }) :=
  find?_map_update (fun u : User => u.id) (fun u => { u with role := Role.staff })
    (fun _ => rfl) s.users uid

@[simp] lemma findResource?_create_notification (s : LibState) (uid : Nat) (t : NType)
    (pk : Nat) :
    findResource? (create_notification s uid t) pk = findResource? s pk := rfl

@[simp] lemma findResource?_setCheckoutStatus (s : LibState) (cid : Nat) (st : CkStatus)
    (pk : Nat) :
    findResource? (setCheckoutStatus s cid st) pk = findResource? s pk := rfl

@[simp] lemma findResource?_addCheckout (s : LibState) (c : Checkout) (pk : Nat) :
    findResource? { s with checkouts := c :: s.checkouts,
                           nextCheckoutId := s.nextCheckoutId + 1 } pk
      = findResource? s pk := rfl

@[simp] lemma findResource?_addReturn (s : LibState) (ret : Return) (pk : Nat) :
    findResource? { s with returns := ret :: s.returns } pk = findResource? s pk := rfl

@[simp] lemma findResource?_addReservation (s : LibState) (rv : Reservation) (pk : Nat) :
    findResource? { s with reservations := rv :: s.reservations } pk
      = findResource? s pk := rfl

/-! ### Sample states used by the witnesses -/

/-- One AVAILABLE resource, no history. -/
def stAvail : LibState :=
  { users := [], resources := [{ id := 1, status := ResStatus.available }],
    checkouts := [], returns := [], reservations := [], notifications := [],
    reports := [], nextCheckoutId := 5 }

/-- A sample patron. -/
def patron7 : User := { id := 7, role := Role.patron, is_active := true }

/-! ### C1 -/

/-- C1: the claimed checkout effect is unreachable in the program as
written.  `calculate_due_date` raises `NameError` (`timedelta` is never
imported in views.py), so a PATRON checking out an AVAILABLE resource
aborts with the escaped exception — at the concrete failing input the
request errors — and in general no run of the view ever changes the store
or reaches the success outcome: no Checkout is created and no resource
becomes CHECKED_OUT. -/
theorem checkout_always_crashes_or_rejects :
    checkout_resource_actual stAvail patron7 1 0 = Except.error () ∧
    ∀ (s : LibState) (actor : User) (pk : Nat) (now : Int),
      stateAfter s (checkout_resource_actual s actor pk now) = s ∧
      isSuccess (checkout_resource_actual s actor pk now) = false := by
  refine ⟨rfl, ?_⟩
  intro s actor pk now
  unfold checkout_resource_actual
  split
  · exact ⟨rfl, rfl⟩
  · split
    · exact ⟨rfl, rfl⟩
    · split
      · exact ⟨rfl, rfl⟩
      · exact ⟨rfl, rfl⟩

/-! ### C2 -/

/-- C2: returning an ACTIVE checkout creates a Return whose fine is `0` when
`now ≤ due_date`, and the number of whole days elapsed past `due_date`
(floored) times `$1` when `now > due_date`. -/
theorem return_fine_rule (s : LibState) (actor : User) (cid : Nat) (now : Int)
    (c : Checkout)
    (hfind : findOwnedCheckout? s cid actor.id = some c)
    (hactive : c.status = CkStatus.active) :
    ∃ ret : Return,
      (return_resource s actor cid now).1.returns = ret :: s.returns ∧
      ret.checkout = c.id ∧
      (now ≤ c.due_date → ret.fine_amount = 0) ∧
      (c.due_date < now →
        ret.fine_amount = (now - c.due_date).fdiv secondsPerDay ∧
        ret.fine_amount = (now - c.due_date) / secondsPerDay) := by
  refine ⟨{ checkout := c.id, returned_at := now,
            fine_amount := calculate_overdue_fine c now }, ?_, rfl, ?_, ?_⟩
  · unfold return_resource
    simp [hfind, hactive]
  · intro hle
    simp [calculate_overdue_fine, is_overdue, hactive]
    omega
  · intro hlt
    have hnn : (0 : Int) ≤ now - c.due_date := by omega
    have hfd : (0 : Int) ≤ (now - c.due_date).fdiv secondsPerDay :=
      Int.fdiv_nonneg hnn (by norm_num [secondsPerDay])
    constructor
    · simp [calculate_overdue_fine, is_overdue, hactive, hlt]
      omega
    · rw [show calculate_overdue_fine c now = (now - c.due_date).fdiv secondsPerDay by
        simp [calculate_overdue_fine, is_overdue, hactive, hlt]; omega]
      exact Int.fdiv_eq_ediv _ (by norm_num [secondsPerDay])

/-- C2 witness: checkout due at time `0`, returned exactly `5` days late
(`5 * 86400` seconds), yielding a `$5` fine; and a return at the due
instant yields `$0`. -/
theorem return_fine_rule_witness :
    (0 : Int) < 5 * 86400 ∧
    ∃ ret : Return,
      (return_resource
        { users := [], resources := [{ id := 1, status := ResStatus.checkedOut }],
          checkouts := [{ id := 3, patron := 7, resource := 1, checkout_date := -100,
                          due_date := 0, status := CkStatus.active }],
          returns := [], reservations := [], notifications := [], reports := [],
          nextCheckoutId := 4 } patron7 3 (5 * 86400)).1.returns = ret :: [] ∧
      ret.checkout = 3 ∧
      ((5 * 86400 : Int) ≤ 0 → ret.fine_amount = 0) ∧
      ((0 : Int) < 5 * 86400 →
        ret.fine_amount = ((5 * 86400 : Int) - 0).fdiv secondsPerDay ∧
        ret.fine_amount = ((5 * 86400 : Int) - 0) / secondsPerDay) := by
  refine ⟨by norm_num, ?_⟩
  exact return_fine_rule _ patron7 3 (5 * 86400)
    { id := 3, patron := 7, resource := 1, checkout_date := -100,
      due_date := 0, status := CkStatus.active } (by decide) rfl

/-- C2 corollary witness value check: the fine in the scenario above is `5`
dollars. -/
theorem return_fine_five_days :
    calculate_overdue_fine
      { id := 3, patron := 7, resource := 1, checkout_date := -100,
        due_date := 0, status := CkStatus.active } (5 * 86400) = 5 := by
  decide

/-! ### C3 -/

/-- C3: a return attempt on a checkout whose status is not ACTIVE fails with
no state change at all, for both the self-service and the staff-initiated
return — so a second return of the same checkout is rejected without a
second Return row. -/
theorem return_not_active_rejected (s : LibState) (actor staffActor : User)
    (cid cid2 : Nat) (now now2 : Int) (c c2 : Checkout)
    (hfind : findOwnedCheckout? s cid actor.id = some c)
    (hna : c.status ≠ CkStatus.active)
    (hfind2 : findCheckout? s cid2 = some c2)
    (hna2 : c2.status ≠ CkStatus.active) :
    return_resource s actor cid now = (s, Outcome.notActive) ∧
    (staffActor.role = Role.staff →
      staff_process_return s staffActor cid2 now2 = (s, Outcome.notActive)) := by
  constructor
  · unfold return_resource
    simp [hfind, hna]
  · intro hrole
    unfold staff_process_return
    simp [hrole, hfind2, hna2]

/-- A state holding one already-RETURNED checkout and its Return row. -/
def stReturned : LibState :=
  { users := [], resources := [{ id := 1, status := ResStatus.available }],
    checkouts := [{ id := 3, patron := 7, resource := 1, checkout_date := 0,
                    due_date := 14 * 86400, status := CkStatus.returned }],
    returns := [{ checkout := 3, returned_at := 10, fine_amount := 0 }],
    reservations := [], notifications := [], reports := [],
    nextCheckoutId := 4 }

/-- The RETURNED checkout row of `stReturned`. -/
def ckReturned : Checkout :=
  { id := 3, patron := 7, resource := 1, checkout_date := 0,
    due_date := 14 * 86400, status := CkStatus.returned }

/-- A sample staff member. -/
def staff9 : User := { id := 9, role := Role.staff, is_active := true }

/-- C3 witness: a RETURNED checkout; both return paths reject it and leave
the state untouched. -/
theorem return_not_active_rejected_witness :
    (CkStatus.returned ≠ CkStatus.active) ∧
    return_resource stReturned patron7 3 20 = (stReturned, Outcome.notActive) ∧
    staff_process_return stReturned staff9 3 20 = (stReturned, Outcome.notActive) := by
  have h := return_not_active_rejected stReturned patron7 staff9 3 3 20 20
    ckReturned ckReturned (by decide) (by decide) (by decide) (by decide)
  exact ⟨by decide, h.1, h.2 rfl⟩

/-! ### C4 -/

@[simp] lemma pendingCount_setResourceStatus (s : LibState) (rid : Nat)
    (st : ResStatus) (pid : Nat) :
    pendingCount (setResourceStatus s rid st) pid = pendingCount s pid := rfl

@[simp] lemma pendingCount_create_notification (s : LibState) (uid : Nat)
    (t : NType) (pid : Nat) :
    pendingCount (create_notification s uid t) pid = pendingCount s pid := rfl

/-- Adding a PENDING reservation of the actor bumps the actor's pending
count by one. -/
lemma pendingCount_addReservation (s : LibState) (pid pk : Nat) :
    pendingCount
      { s with reservations :=
          { patron := pid, resource := pk, status := RsvStatus.pending }
            :: s.reservations } pid
      = pendingCount s pid + 1 := by
  simp [pendingCount, List.filter]

/-- C4: a reserve attempt by a patron holding ≥ 10 PENDING reservations is
rejected with no state change; with ≤ 9 it is never rejected on the cap;
and at exactly 9 the 10th reservation succeeds while the 11th attempt is
rejected. -/
theorem reservation_cap (s : LibState) (actor : User) (pk : Nat) (r : Resource)
    (hfind : findResource? s pk = some r) :
    (pendingCount s actor.id ≥ 10 →
      reserve_resource s actor pk = (s, Outcome.capReached)) ∧
    (pendingCount s actor.id < 10 →
      (reserve_resource s actor pk).2 ≠ Outcome.capReached) ∧
    (pendingCount s actor.id = 9 → r.status ≠ ResStatus.available →
      (reserve_resource s actor pk).2 = Outcome.success ∧
      pendingCount (reserve_resource s actor pk).1 actor.id = 10 ∧
      reserve_resource (reserve_resource s actor pk).1 actor pk
        = ((reserve_resource s actor pk).1, Outcome.capReached)) := by
  refine ⟨?_, ?_, ?_⟩
  · intro h10
    unfold reserve_resource
    simp [hfind, MAX_ACTIVE_RESERVATIONS_PER_PATRON, h10]
  · intro hlt
    unfold reserve_resource
    simp only [hfind]
    rw [if_neg (by simp [MAX_ACTIVE_RESERVATIONS_PER_PATRON]; omega)]
    split
    · simp
    · simp
  · intro h9 hna
    have hnotcap : ¬ pendingCount s actor.id ≥ MAX_ACTIVE_RESERVATIONS_PER_PATRON := by
      simp [MAX_ACTIVE_RESERVATIONS_PER_PATRON]; omega
    have hstep : reserve_resource s actor pk
        = (create_notification
            (setResourceStatus
              { s with reservations :=
                  { patron := actor.id, resource := pk, status := RsvStatus.pending }
                    :: s.reservations }
              pk ResStatus.reserved)
            actor.id NType.resAvail, Outcome.success) := by
      unfold reserve_resource
      simp [hfind, hnotcap, hna]
    have hcount : pendingCount (reserve_resource s actor pk).1 actor.id = 10 := by
      rw [hstep]
      simp [pendingCount_addReservation, h9]
    refine ⟨by rw [hstep], hcount, ?_⟩
    have hfind2 : findResource? (reserve_resource s actor pk).1 pk
        = some { r with status := ResStatus.reserved } := by
      rw [hstep]
      simp [findResource?_setResourceStatus, hfind]
    generalize hg : (reserve_resource s actor pk).1 = s1 at hcount hfind2 ⊢
    unfold reserve_resource
    simp [hfind2, MAX_ACTIVE_RESERVATIONS_PER_PATRON, hcount]

/-- A state with nine PENDING reservations by patron 7 and one CHECKED_OUT
resource. -/
def stNine : LibState :=
  { users := [], resources := [{ id := 1, status := ResStatus.checkedOut }],
    checkouts := [], returns := [],
    reservations :=
      (List.range 9).map (fun k =>
        { patron := 7, resource := 100 + k, status := RsvStatus.pending }),
    notifications := [], reports := [], nextCheckoutId := 0 }

/-- C4 witness: with nine PENDING reservations the 10th succeeds and the
11th attempt is rejected on the cap. -/
theorem reservation_cap_witness :
    pendingCount stNine 7 = 9 ∧
    (reserve_resource stNine patron7 1).2 = Outcome.success ∧
    pendingCount (reserve_resource stNine patron7 1).1 7 = 10 ∧
    reserve_resource (reserve_resource stNine patron7 1).1 patron7 1
      = ((reserve_resource stNine patron7 1).1, Outcome.capReached) := by
  have h := reservation_cap stNine patron7 1
    { id := 1, status := ResStatus.checkedOut } (by decide)
  have h3 := h.2.2 (by decide) (by decide)
  exact ⟨by decide, h3.1, h3.2.1, h3.2.2⟩

/-! ### C6 -/

/-- A state with one CHECKED_OUT resource and a STAFF user, no history. -/
def stCheckedOut : LibState :=
  { users := [staff9], resources := [{ id := 1, status := ResStatus.checkedOut }],
    checkouts := [], returns := [], reservations := [], notifications := [],
    reports := [], nextCheckoutId := 0 }

/-- C6: `reserve_resource` is gated only by `login_required`; an
authenticated STAFF user's reserve request is NOT rejected: it creates a
PENDING Reservation and sets the resource to RESERVED.  This exhibits the
divergence from the spec's patron-only access rule for the reserve route. -/
theorem reserve_accepts_staff_actor :
    staff9.role ≠ Role.patron ∧
    (reserve_resource stCheckedOut staff9 1).2 = Outcome.success ∧
    (reserve_resource stCheckedOut staff9 1).1.reservations
      = [{ patron := 9, resource := 1, status := RsvStatus.pending }] ∧
    findResource? (reserve_resource stCheckedOut staff9 1).1 1
      = some { id := 1, status := ResStatus.reserved } := by
  decide

/-! ### C7 -/

/-- C7: reserving an AVAILABLE resource as a patron under the cap is an
advisory rejection: no Reservation is created and the whole state — in
particular `resource.status` — is unchanged. -/
theorem reserve_available_advisory (s : LibState) (actor : User) (pk : Nat)
    (r : Resource)
    (hrole : actor.role = Role.patron)
    (hcap : pendingCount s actor.id < 10)
    (hfind : findResource? s pk = some r)
    (hav : r.status = ResStatus.available) :
    reserve_resource s actor pk = (s, Outcome.advisoryAvailable) := by
  have hnotcap : ¬ pendingCount s actor.id ≥ MAX_ACTIVE_RESERVATIONS_PER_PATRON := by
    simp [MAX_ACTIVE_RESERVATIONS_PER_PATRON]; omega
  unfold reserve_resource
  simp [hfind, hnotcap, hav]

/-- C7 witness: an AVAILABLE resource, a patron with no reservations. -/
theorem reserve_available_advisory_witness :
    patron7.role = Role.patron ∧
    pendingCount stAvail 7 < 10 ∧
    reserve_resource stAvail patron7 1 = (stAvail, Outcome.advisoryAvailable) :=
  ⟨rfl, by decide,
    reserve_available_advisory stAvail patron7 1
      { id := 1, status := ResStatus.available } rfl (by decide) (by decide) rfl⟩

/-! ### C9 -/

/-- C9: a patron under the cap reserving a LOST resource succeeds: a PENDING
Reservation is created and the resource's status changes LOST → RESERVED. -/
theorem reserve_lost_resource (s : LibState) (actor : User) (pk : Nat)
    (r : Resource)
    (hrole : actor.role = Role.patron)
    (hcap : pendingCount s actor.id < 10)
    (hfind : findResource? s pk = some r)
    (hlost : r.status = ResStatus.lost) :
    (reserve_resource s actor pk).2 = Outcome.success ∧
    (reserve_resource s actor pk).1.reservations
      = { patron := actor.id, resource := pk, status := RsvStatus.pending }
          :: s.reservations ∧
    findResource? (reserve_resource s actor pk).1 pk
      = some { r with status := ResStatus.reserved } := by
  have hna : r.status ≠ ResStatus.available := by rw [hlost]; intro h; cases h
  have hnotcap : ¬ pendingCount s actor.id ≥ MAX_ACTIVE_RESERVATIONS_PER_PATRON := by
    simp [MAX_ACTIVE_RESERVATIONS_PER_PATRON]; omega
  have hstep : reserve_resource s actor pk
      = (create_notification
          (setResourceStatus
            { s with reservations :=
                { patron := actor.id, resource := pk, status := RsvStatus.pending }
                  :: s.reservations }
            pk ResStatus.reserved)
          actor.id NType.resAvail, Outcome.success) := by
    unfold reserve_resource
    simp [hfind, hnotcap, hna]
  rw [hstep]
  refine ⟨rfl, by simp, ?_⟩
  simp [findResource?_setResourceStatus, hfind]

/-- A state with one LOST resource, no history. -/
def stLost : LibState :=
  { users := [], resources := [{ id := 2, status := ResStatus.lost }],
    checkouts := [], returns := [], reservations := [], notifications := [],
    reports := [], nextCheckoutId := 0 }

/-- C9 witness: patron 7 reserves the LOST resource 2. -/
theorem reserve_lost_resource_witness :
    patron7.role = Role.patron ∧
    pendingCount stLost 7 < 10 ∧
    (reserve_resource stLost patron7 2).2 = Outcome.success ∧
    (reserve_resource stLost patron7 2).1.reservations
      = [{ patron := 7, resource := 2, status := RsvStatus.pending }] ∧
    findResource? (reserve_resource stLost patron7 2).1 2
      = some { id := 2, status := ResStatus.reserved } := by
  have h := reserve_lost_resource stLost patron7 2
    { id := 2, status := ResStatus.lost } rfl (by decide) (by decide) rfl
  exact ⟨rfl, by decide, h.1, h.2.1, h.2.2⟩

/-! ### C8 -/

/-- C8: for an ADMIN actor and any existing target user,
`admin_promote_to_staff` sets the target's role to STAFF unconditionally;
and the operation is idempotent: promoting twice yields exactly the state
of promoting once (with no hypotheses at all). -/
theorem promote_sets_staff_and_idempotent (s : LibState) (actor : User)
    (uid : Nat) :
    (∀ u : User, actor.role = Role.admin → findUser? s uid = some u →
      (admin_promote_to_staff s actor uid).2 = Outcome.success ∧
      findUser? (admin_promote_to_staff s actor uid).1 uid
        = some { u with role := Role.staff }) ∧
    (admin_promote_to_staff (admin_promote_to_staff s actor uid).1 actor uid).1
      = (admin_promote_to_staff s actor uid).1 := by
  constructor
  · intro u hrole hfind
    unfold admin_promote_to_staff
    rw [hrole, hfind]
    refine ⟨by simp, ?_⟩
    simp only [bne_self_eq_false, Bool.false_eq_true, if_false]
    show (s.users.map _).find? _ = _
    rw [findUser?] at hfind
    rw [findUser?_promote, hfind]
    rfl
  · by_cases hrole : actor.role = Role.admin
    · cases hfind : findUser? s uid with
      | none =>
        unfold admin_promote_to_staff
        rw [hrole]
        simp [hfind]
      | some u =>
        have hstep : admin_promote_to_staff s actor uid
            = ({ s with users :=
                  s.users.map (fun v =>
                    if v.id == uid then { v with role := Role.staff } else v) },
                Outcome.success) := by
          unfold admin_promote_to_staff
          rw [hrole, hfind]
          simp
        rw [hstep]
        have hfind2 : findUser?
            { s with users :=
                s.users.map (fun v =>
                  if v.id == uid then { v with role := Role.staff } else v) } uid
            = some { u with role := Role.staff } := by
          show (s.users.map _).find? _ = _
          rw [findUser?] at hfind
          rw [findUser?_promote, hfind]
          rfl
        unfold admin_promote_to_staff
        rw [hrole, hfind2]
        simp only [bne_self_eq_false, Bool.false_eq_true, if_false]
        rw [List.map_map]
        congr 1
        apply List.map_congr_left
        intro v _
        by_cases hv : v.id = uid
        · simp [Function.comp, hv]
        · simp [Function.comp, hv]
    · unfold admin_promote_to_staff
      rw [if_pos (by simp [hrole]), if_pos (by simp [hrole])]

/-- A state with a PATRON user 7 and an ADMIN user 1. -/
def stUsers : LibState :=
  { users := [{ id := 1, role := Role.admin, is_active := true }, patron7],
    resources := [], checkouts := [], returns := [], reservations := [],
    notifications := [], reports := [], nextCheckoutId := 0 }

/-- The admin of `stUsers`. -/
def admin1 : User := { id := 1, role := Role.admin, is_active := true }

/-- C8 witness: admin 1 promotes patron 7; the role becomes STAFF and a
second promote changes nothing. -/
theorem promote_sets_staff_and_idempotent_witness :
    admin1.role = Role.admin ∧
    findUser? stUsers 7 = some patron7 ∧
    (admin_promote_to_staff stUsers admin1 7).2 = Outcome.success ∧
    findUser? (admin_promote_to_staff stUsers admin1 7).1 7
      = some { patron7 with role := Role.staff } ∧
    (admin_promote_to_staff (admin_promote_to_staff stUsers admin1 7).1 admin1 7).1
      = (admin_promote_to_staff stUsers admin1 7).1 := by
  have h := promote_sets_staff_and_idempotent stUsers admin1 7
  have h1 := h.1 patron7 rfl (by decide)
  exact ⟨rfl, by decide, h1.1, h1.2, h.2⟩

/-! ### C10 -/

/-- C10: both return operations set the returned resource's status to
AVAILABLE unconditionally, whatever its prior status (including RESERVED),
and leave the Reservation table — including PENDING reservations on that
resource — exactly as it was. -/
theorem return_sets_available_keeps_reservations (s : LibState)
    (actor staffActor : User) (cid cid2 : Nat) (now now2 : Int)
    (c c2 : Checkout) (r r2 : Resource) :
    (findOwnedCheckout? s cid actor.id = some c → c.status = CkStatus.active →
      findResource? s c.resource = some r →
      findResource? (return_resource s actor cid now).1 c.resource
        = some { r with status := ResStatus.available } ∧
      (return_resource s actor cid now).1.reservations = s.reservations) ∧
    (staffActor.role = Role.staff → findCheckout? s cid2 = some c2 →
      c2.status = CkStatus.active → findResource? s c2.resource = some r2 →
      findResource? (staff_process_return s staffActor cid2 now2).1 c2.resource
        = some { r2 with status := ResStatus.available } ∧
      (staff_process_return s staffActor cid2 now2).1.reservations
        = s.reservations) := by
  constructor
  · intro hfind hactive hres
    have hstep : return_resource s actor cid now
        = (create_notification
            (setResourceStatus
              (setCheckoutStatus
                { s with returns :=
                    { checkout := c.id, returned_at := now,
                      fine_amount := calculate_overdue_fine c now } :: s.returns }
                c.id CkStatus.returned)
              c.resource ResStatus.available)
            actor.id
            (if calculate_overdue_fine c now > 0 then NType.overdue else NType.event),
          Outcome.success) := by
      unfold return_resource
      simp [hfind, hactive]
    rw [hstep]
    refine ⟨?_, by simp⟩
    simp [findResource?_setResourceStatus, hres]
  · intro hrole hfind hactive hres
    have hstep : staff_process_return s staffActor cid2 now2
        = (create_notification
            (setResourceStatus
              (setCheckoutStatus
                { s with returns :=
                    { checkout := c2.id, returned_at := now2,
                      fine_amount := calculate_overdue_fine c2 now2 } :: s.returns }
                c2.id CkStatus.returned)
              c2.resource ResStatus.available)
            c2.patron
            (if calculate_overdue_fine c2 now2 > 0 then NType.overdue else NType.event),
          Outcome.success) := by
      unfold staff_process_return
      simp [hrole, hfind, hactive]
    rw [hstep]
    refine ⟨?_, by simp⟩
    simp [findResource?_setResourceStatus, hres]

/-- A state with an ACTIVE checkout of resource 1 whose status is RESERVED
(someone reserved it while it was out), plus that PENDING reservation. -/
def stReservedOut : LibState :=
  { users := [patron7, staff9],
    resources := [{ id := 1, status := ResStatus.reserved }],
    checkouts := [{ id := 3, patron := 7, resource := 1, checkout_date := 0,
                    due_date := 14 * 86400, status := CkStatus.active }],
    returns := [],
    reservations := [{ patron := 8, resource := 1, status := RsvStatus.pending }],
    notifications := [], reports := [], nextCheckoutId := 4 }

/-- The ACTIVE checkout row of `stReservedOut`. -/
def ckActive : Checkout :=
  { id := 3, patron := 7, resource := 1, checkout_date := 0,
    due_date := 14 * 86400, status := CkStatus.active }

/-- C10 witness: returning the checkout of the RESERVED resource makes it
AVAILABLE while the PENDING reservation row survives unchanged — on both
the self-service and the staff path. -/
theorem return_sets_available_keeps_reservations_witness :
    (findResource? (return_resource stReservedOut patron7 3 20).1 1
        = some { id := 1, status := ResStatus.available } ∧
      (return_resource stReservedOut patron7 3 20).1.reservations
        = [{ patron := 8, resource := 1, status := RsvStatus.pending }]) ∧
    (findResource? (staff_process_return stReservedOut staff9 3 20).1 1
        = some { id := 1, status := ResStatus.available } ∧
      (staff_process_return stReservedOut staff9 3 20).1.reservations
        = [{ patron := 8, resource := 1, status := RsvStatus.pending }]) := by
  have h := return_sets_available_keeps_reservations stReservedOut patron7 staff9
    3 3 20 20 ckActive ckActive { id := 1, status := ResStatus.reserved }
    { id := 1, status := ResStatus.reserved }
  have h1 := h.1 (by decide) (by decide) (by decide)
  have h2 := h.2 rfl (by decide) (by decide) (by decide)
  exact ⟨⟨h1.1, h1.2⟩, ⟨h2.1, h2.2⟩⟩

/-! ### C5: the at-most-one-ACTIVE-checkout invariant -/

/-- Is `c` an ACTIVE checkout of resource `rid`? -/
def isActiveFor (rid : Nat) (c : Checkout) : Bool :=
  c.resource == rid && c.status == CkStatus.active

/-- Number of ACTIVE checkouts of resource `rid`. -/
def activeCountFor (s : LibState) (rid : Nat) : Nat :=
  s.checkouts.countP (isActiveFor rid)

/-- The state invariant: every resource has at most one ACTIVE checkout, an
AVAILABLE resource has none, and checkout ids stay below the next fresh id. -/
def Inv (s : LibState) : Prop :=
  (∀ rid, activeCountFor s rid ≤ 1) ∧
  (∀ r ∈ s.resources, r.status = ResStatus.available → activeCountFor s r.id = 0) ∧
  (∀ c ∈ s.checkouts, c.id < s.nextCheckoutId)

/-- Mapping a function that never turns a non-`p` element into a `p` one
does not increase a `countP`. -/
lemma countP_map_le {α : Type} (p : α → Bool) (f : α → α) (l : List α)
    (hf : ∀ a, p (f a) = true → p a = true) :
    (l.map f).countP p ≤ l.countP p := by
  rw [List.countP_map]
  exact List.countP_mono_left (fun a _ h => hf a h)

/-- A member satisfying `p` forces a positive `countP`. -/
lemma one_le_countP_of_mem {α : Type} (p : α → Bool) (l : List α) (a : α)
    (ha : a ∈ l) (hp : p a = true) : 1 ≤ l.countP p := by
  induction l with
  | nil => cases ha
  | cons b t ih =>
    simp only [List.countP_cons]
    rcases List.mem_cons.mp ha with rfl | hmem
    · simp [hp]
    · have := ih hmem
      omega

/-- When at most one member of `l` satisfies `p`, two satisfying members
are equal. -/
lemma countP_le_one_unique {α : Type} (p : α → Bool) (l : List α)
    (hle : l.countP p ≤ 1) (a b : α) (ha : a ∈ l) (hb : b ∈ l)
    (hpa : p a = true) (hpb : p b = true) : a = b := by
  induction l with
  | nil => cases ha
  | cons x t ih =>
    rw [List.countP_cons] at hle
    rcases List.mem_cons.mp ha with rfl | ha' <;>
      rcases List.mem_cons.mp hb with rfl | hb'
    · rfl
    · exfalso
      have h1 := one_le_countP_of_mem p t b hb' hpb
      rw [hpa, if_pos rfl] at hle
      omega
    · exfalso
      have h1 := one_le_countP_of_mem p t a ha' hpa
      rw [hpb, if_pos rfl] at hle
      omega
    · exact ih (by omega) ha' hb'

/-- After flipping the one ACTIVE checkout `c` of resource `rid` to
RETURNED, no ACTIVE checkout of `rid` remains. -/
lemma countP_flip_zero (l : List Checkout) (cid rid : Nat) (c : Checkout)
    (hmem : c ∈ l) (hid : c.id = cid) (hp : isActiveFor rid c = true)
    (hle : l.countP (isActiveFor rid) ≤ 1) :
    (l.map (fun x => if x.id == cid then { x with status := CkStatus.returned }
        else x)).countP (isActiveFor rid) = 0 := by
  rw [List.countP_eq_zero]
  intro y hy
  rcases List.mem_map.mp hy with ⟨x, hx, rfl⟩
  intro hcon
  by_cases hidx : x.id = cid
  · rw [if_pos (by simp [hidx])] at hcon
    simp [isActiveFor] at hcon
  · rw [if_neg (by simp [hidx])] at hcon
    have hxc : x = c := countP_le_one_unique _ l hle x c hx hmem hcon hp
    rw [hxc] at hidx
    exact hidx hid

/-- The checkout operation preserves the invariant. -/
lemma inv_checkout (s : LibState) (actor : User) (pk : Nat) (now : Int)
    (h : Inv s) : Inv (checkout_resource s actor pk now).1 := by
  cases hrole : (actor.role != Role.patron) with
  | true => simp only [checkout_resource, hrole, if_true]; exact h
  | false =>
    cases hfind : findResource? s pk with
    | none => simp only [checkout_resource, hrole, hfind]; exact h
    | some r =>
      cases hav : (r.status != ResStatus.available) with
      | true =>
        simp only [checkout_resource, hrole, hfind, hav]
        exact h
      | false =>
        have hav' : r.status = ResStatus.available := by
          simpa using hav
        have hstep : (checkout_resource s actor pk now).1
            = create_notification
                (setResourceStatus
                  { s with
                      checkouts :=
                        { id := s.nextCheckoutId, patron := actor.id, resource := pk,
                          checkout_date := now, due_date := calculate_due_date now,
                          status := CkStatus.active } :: s.checkouts,
                      nextCheckoutId := s.nextCheckoutId + 1 }
                  pk ResStatus.checkedOut)
                actor.id NType.newResource := by
          unfold checkout_resource
          simp [hrole, hfind, hav, calculate_due_date]
        rw [hstep]
        obtain ⟨h1, h2, h3⟩ := h
        have hmem := List.mem_of_find?_eq_some hfind
        have hrid : r.id = pk := by
          have := List.find?_some hfind
          simpa using this
        have hzero : activeCountFor s pk = 0 := by
          have := h2 r hmem hav'
          rwa [hrid] at this
        refine ⟨?_, ?_, ?_⟩
        · intro rid
          show (_ :: s.checkouts).countP (isActiveFor rid) ≤ 1
          rw [List.countP_cons]
          by_cases hr : pk = rid
          · subst hr
            have hpnew : isActiveFor pk
                { id := s.nextCheckoutId, patron := actor.id, resource := pk,
                  checkout_date := now, due_date := calculate_due_date now,
                  status := CkStatus.active } = true := by
              simp [isActiveFor]
            rw [hpnew, if_pos rfl]
            have : activeCountFor s pk = s.checkouts.countP (isActiveFor pk) := rfl
            omega
          · have hpnew : isActiveFor rid
                { id := s.nextCheckoutId, patron := actor.id, resource := pk,
                  checkout_date := now, due_date := calculate_due_date now,
                  status := CkStatus.active } = false := by
              simp [isActiveFor]
              intro hcon
              exact absurd hcon hr
            rw [hpnew, if_neg (by simp)]
            have : s.checkouts.countP (isActiveFor rid) ≤ 1 := h1 rid
            omega
        · intro r' hr' hav''
          have hr'' : r' ∈ s.resources.map
              (fun x => if x.id == pk then { x with status := ResStatus.checkedOut }
                else x) := hr'
          rcases List.mem_map.mp hr'' with ⟨r0, hr0, hr0eq⟩
          by_cases hid0 : r0.id = pk
          · rw [if_pos (by simp [hid0])] at hr0eq
            rw [← hr0eq] at hav''
            cases hav''
          · rw [if_neg (by simp [hid0])] at hr0eq
            subst hr0eq
            have hz := h2 r0 hr0 hav''
            show (_ :: s.checkouts).countP (isActiveFor r0.id) = 0
            rw [List.countP_cons]
            have hpnew : isActiveFor r0.id
                { id := s.nextCheckoutId, patron := actor.id, resource := pk,
                  checkout_date := now, due_date := calculate_due_date now,
                  status := CkStatus.active } = false := by
              simp [isActiveFor]
              intro hcon
              exact absurd hcon.symm hid0
            rw [hpnew, if_neg (by simp)]
            have : s.checkouts.countP (isActiveFor r0.id) = 0 := hz
            omega
        · intro c hc
          rcases List.mem_cons.mp hc with rfl | hmem'
          · show s.nextCheckoutId < s.nextCheckoutId + 1
            omega
          · have := h3 c hmem'
            show c.id < s.nextCheckoutId + 1
            omega

/-- The state produced by either return operation's success path preserves
the invariant. -/
lemma inv_return_state (s : LibState) (c : Checkout) (now : Int) (uid : Nat)
    (t : NType) (hmem : c ∈ s.checkouts) (hactive : c.status = CkStatus.active)
    (h : Inv s) :
    Inv (create_notification
          (setResourceStatus
            (setCheckoutStatus
              { s with returns :=
                  { checkout := c.id, returned_at := now,
                    fine_amount := calculate_overdue_fine c now } :: s.returns }
              c.id CkStatus.returned)
            c.resource ResStatus.available)
          uid t) := by
  obtain ⟨h1, h2, h3⟩ := h
  have hflip : ∀ (rid : Nat) (x : Checkout),
      isActiveFor rid (if x.id == c.id then { x with status := CkStatus.returned }
        else x) = true → isActiveFor rid x = true := by
    intro rid x hx
    by_cases hidx : x.id = c.id
    · rw [if_pos (by simp [hidx])] at hx
      simp [isActiveFor] at hx
    · rwa [if_neg (by simp [hidx])] at hx
  refine ⟨?_, ?_, ?_⟩
  · intro rid
    show (s.checkouts.map _).countP (isActiveFor rid) ≤ 1
    have := countP_map_le (isActiveFor rid)
      (fun x => if x.id == c.id then { x with status := CkStatus.returned } else x)
      s.checkouts (hflip rid)
    have hle := h1 rid
    have : activeCountFor s rid = s.checkouts.countP (isActiveFor rid) := rfl
    omega
  · intro r' hr' hav'
    have hr'' : r' ∈ s.resources.map
        (fun x => if x.id == c.resource then { x with status := ResStatus.available }
          else x) := hr'
    rcases List.mem_map.mp hr'' with ⟨r0, hr0, hr0eq⟩
    by_cases hid0 : r0.id = c.resource
    · rw [if_pos (by simp [hid0])] at hr0eq
      have hrideq : r'.id = c.resource := by rw [← hr0eq]; exact hid0
      show (s.checkouts.map _).countP (isActiveFor r'.id) = 0
      rw [hrideq]
      exact countP_flip_zero s.checkouts c.id c.resource c hmem rfl
        (by simp [isActiveFor, hactive]) (h1 c.resource)
    · rw [if_neg (by simp [hid0])] at hr0eq
      subst hr0eq
      have hz := h2 r0 hr0 hav'
      show (s.checkouts.map _).countP (isActiveFor r0.id) = 0
      have hmap := countP_map_le (isActiveFor r0.id)
        (fun x => if x.id == c.id then { x with status := CkStatus.returned } else x)
        s.checkouts (hflip r0.id)
      have : activeCountFor s r0.id = s.checkouts.countP (isActiveFor r0.id) := rfl
      omega
  · intro x hx
    have hx' : x ∈ s.checkouts.map
        (fun y => if y.id == c.id then { y with status := CkStatus.returned }
          else y) := hx
    rcases List.mem_map.mp hx' with ⟨y, hy, hyeq⟩
    have hidy : x.id = y.id := by
      rw [← hyeq]
      by_cases hc : y.id = c.id
      · rw [if_pos (by simp [hc])]
      · rw [if_neg (by simp [hc])]
    show x.id < s.nextCheckoutId
    rw [hidy]
    exact h3 y hy

/-- The self-service return operation preserves the invariant. -/
lemma inv_return (s : LibState) (actor : User) (cid : Nat) (now : Int)
    (h : Inv s) : Inv (return_resource s actor cid now).1 := by
  cases hfind : findOwnedCheckout? s cid actor.id with
  | none => simp only [return_resource, hfind]; exact h
  | some c =>
    cases hna : (c.status != CkStatus.active) with
    | true => simp only [return_resource, hfind, hna, if_true]; exact h
    | false =>
      have hactive : c.status = CkStatus.active := by simpa using hna
      have hmem : c ∈ s.checkouts := List.mem_of_find?_eq_some hfind
      have hstep : (return_resource s actor cid now).1
          = create_notification
              (setResourceStatus
                (setCheckoutStatus
                  { s with returns :=
                      { checkout := c.id, returned_at := now,
                        fine_amount := calculate_overdue_fine c now } :: s.returns }
                  c.id CkStatus.returned)
                c.resource ResStatus.available)
              actor.id
              (if calculate_overdue_fine c now > 0 then NType.overdue
                else NType.event) := by
        unfold return_resource
        simp [hfind, hactive]
      rw [hstep]
      exact inv_return_state s c now actor.id _ hmem hactive h

/-- The staff-initiated return operation preserves the invariant. -/
lemma inv_staff_return (s : LibState) (actor : User) (cid : Nat) (now : Int)
    (h : Inv s) : Inv (staff_process_return s actor cid now).1 := by
  cases hrole : (actor.role != Role.staff) with
  | true => simp only [staff_process_return, hrole, if_true]; exact h
  | false =>
    cases hfind : findCheckout? s cid with
    | none => simp only [staff_process_return, hrole, hfind]; exact h
    | some c =>
      cases hna : (c.status != CkStatus.active) with
      | true => simp only [staff_process_return, hrole, hfind, hna, if_true]; exact h
      | false =>
        have hactive : c.status = CkStatus.active := by simpa using hna
        have hmem : c ∈ s.checkouts := List.mem_of_find?_eq_some hfind
        have hstep : (staff_process_return s actor cid now).1
            = create_notification
                (setResourceStatus
                  (setCheckoutStatus
                    { s with returns :=
                        { checkout := c.id, returned_at := now,
                          fine_amount := calculate_overdue_fine c now } :: s.returns }
                    c.id CkStatus.returned)
                  c.resource ResStatus.available)
                c.patron
                (if calculate_overdue_fine c now > 0 then NType.overdue
                  else NType.event) := by
          unfold staff_process_return
          simp [hrole, hfind, hactive]
        rw [hstep]
        exact inv_return_state s c now c.patron _ hmem hactive h

/-- The reserve operation preserves the invariant. -/
lemma inv_reserve (s : LibState) (actor : User) (pk : Nat)
    (h : Inv s) : Inv (reserve_resource s actor pk).1 := by
  cases hfind : findResource? s pk with
  | none => simp only [reserve_resource, hfind]; exact h
  | some r =>
    by_cases hcap : pendingCount s actor.id ≥ MAX_ACTIVE_RESERVATIONS_PER_PATRON
    · simp only [reserve_resource, hfind, if_pos hcap]; exact h
    · cases hav : (r.status == ResStatus.available) with
      | true =>
        simp only [reserve_resource, hfind, if_neg hcap, hav, if_true]
        exact h
      | false =>
        have hstep : (reserve_resource s actor pk).1
            = create_notification
                (setResourceStatus
                  { s with reservations :=
                      { patron := actor.id, resource := pk,
                        status := RsvStatus.pending } :: s.reservations }
                  pk ResStatus.reserved)
                actor.id NType.resAvail := by
          unfold reserve_resource
          simp [hfind, hcap, hav]
        rw [hstep]
        obtain ⟨h1, h2, h3⟩ := h
        refine ⟨h1, ?_, h3⟩
        intro r' hr' hav'
        have hr'' : r' ∈ s.resources.map
            (fun x => if x.id == pk then { x with status := ResStatus.reserved }
              else x) := hr'
        rcases List.mem_map.mp hr'' with ⟨r0, hr0, hr0eq⟩
        by_cases hid0 : r0.id = pk
        · rw [if_pos (by simp [hid0])] at hr0eq
          rw [← hr0eq] at hav'
          cases hav'
        · rw [if_neg (by simp [hid0])] at hr0eq
          subst hr0eq
          exact h2 r0 hr0 hav'

/-- The promote operation preserves the invariant. -/
lemma inv_promote (s : LibState) (actor : User) (uid : Nat)
    (h : Inv s) : Inv (admin_promote_to_staff s actor uid).1 := by
  cases hrole : (actor.role != Role.admin) with
  | true => simp only [admin_promote_to_staff, hrole, if_true]; exact h
  | false =>
    cases hfind : findUser? s uid with
    | none => simp only [admin_promote_to_staff, hrole, hfind]; exact h
    | some u => simp only [admin_promote_to_staff, hrole, hfind]; exact h

/-- The deactivate operation preserves the invariant. -/
lemma inv_deactivate (s : LibState) (actor : User) (uid : Nat)
    (h : Inv s) : Inv (admin_deactivate_staff s actor uid).1 := by
  cases hrole : (actor.role != Role.admin) with
  | true => simp only [admin_deactivate_staff, hrole, if_true]; exact h
  | false =>
    cases hfind : s.users.find? (fun u => u.id == uid && u.role == Role.staff) with
    | none => simp only [admin_deactivate_staff, hrole, hfind]; exact h
    | some u => simp only [admin_deactivate_staff, hrole, hfind]; exact h

/-- The report operation preserves the invariant. -/
lemma inv_report (s : LibState) (actor : User)
    (h : Inv s) : Inv (generate_popular_resources_report s actor).1 := by
  cases hrole : (actor.role != Role.staff) with
  | true => simp only [generate_popular_resources_report, hrole, if_true]; exact h
  | false => simp only [generate_popular_resources_report, hrole]; exact h

/-- One request: any of the seven state-changing or report views, with
arbitrary authenticated actor and arguments. -/
inductive Step : LibState → LibState → Prop where
  | checkout (s : LibState) (actor : User) (pk : Nat) (now : Int) :
      Step s (checkout_resource s actor pk now).1
  | selfReturn (s : LibState) (actor : User) (cid : Nat) (now : Int) :
      Step s (return_resource s actor cid now).1
  | staffReturn (s : LibState) (actor : User) (cid : Nat) (now : Int) :
      Step s (staff_process_return s actor cid now).1
  | reserve (s : LibState) (actor : User) (pk : Nat) :
      Step s (reserve_resource s actor pk).1
  | promote (s : LibState) (actor : User) (uid : Nat) :
      Step s (admin_promote_to_staff s actor uid).1
  | deactivate (s : LibState) (actor : User) (uid : Nat) :
      Step s (admin_deactivate_staff s actor uid).1
  | report (s : LibState) (actor : User) :
      Step s (generate_popular_resources_report s actor).1

/-- An initial state: no checkout rows yet. -/
def Init (s : LibState) : Prop := s.checkouts = []

/-- Reachability by any finite sequence of requests. -/
def Reachable (s0 s : LibState) : Prop := Relation.ReflTransGen Step s0 s

/-- An initial state satisfies the invariant. -/
lemma inv_init (s : LibState) (h0 : Init s) : Inv s := by
  have hc : s.checkouts = [] := h0
  refine ⟨?_, ?_, ?_⟩
  · intro rid
    show s.checkouts.countP (isActiveFor rid) ≤ 1
    rw [hc]
    simp
  · intro r _ _
    show s.checkouts.countP (isActiveFor r.id) = 0
    rw [hc]
    rfl
  · intro c hcmem
    rw [hc] at hcmem
    cases hcmem

/-- C5: every operation preserves the at-most-one-ACTIVE-checkout-per-
resource invariant, and hence in every state reachable from an initial
state each resource has at most one ACTIVE checkout. -/
theorem active_checkout_unique (s0 s : LibState) :
    (∀ t t' : LibState, Inv t → Step t t' → Inv t') ∧
    (Init s0 → Reachable s0 s → ∀ rid, activeCountFor s rid ≤ 1) := by
  have hpres : ∀ t t' : LibState, Inv t → Step t t' → Inv t' := by
    intro t t' ht hstep
    cases hstep with
    | checkout actor pk now => exact inv_checkout t actor pk now ht
    | selfReturn actor cid now => exact inv_return t actor cid now ht
    | staffReturn actor cid now => exact inv_staff_return t actor cid now ht
    | reserve actor pk => exact inv_reserve t actor pk ht
    | promote actor uid => exact inv_promote t actor uid ht
    | deactivate actor uid => exact inv_deactivate t actor uid ht
    | report actor => exact inv_report t actor ht
  refine ⟨hpres, ?_⟩
  intro h0 hreach
  have hinv : Inv s := by
    induction hreach with
    | refl => exact inv_init s0 h0
    | tail _ hstep ih => exact hpres _ _ ih hstep
  exact hinv.1

/-- C5 witness: from an initial state with one AVAILABLE resource, one
checkout request leads to a state still satisfying the bound. -/
theorem active_checkout_unique_witness :
    Init stAvail ∧
    activeCountFor (checkout_resource stAvail patron7 1 0).1 1 ≤ 1 := by
  have h := active_checkout_unique stAvail (checkout_resource stAvail patron7 1 0).1
  exact ⟨rfl,
    h.2 rfl (Relation.ReflTransGen.single (Step.checkout stAvail patron7 1 0)) 1⟩

end Library
